import Mathlib

/-!
Verification development for the support-hours scheduling engine:
conflict checking, calendar grid generation, navigation, utilization
aggregation and CSV serialization, shallowly embedded from the
JavaScript sources (routes for sessions, calendar and reports).

Dates are modelled time-zone-naively: a calendar date is a
(year, month, day) triple and the JavaScript `Date` arithmetic
(`setDate` with normalization, `getDay`, `getMonth`) is embedded as
structural successor/predecessor functions plus a proleptic Gregorian
day count.
-/

namespace Norton

/-- A calendar date, year ≥ 0 (proleptic Gregorian, time-zone-naive). -/
structure Date where
  year : Nat
  month : Nat
  day : Nat
deriving DecidableEq, Repr

/-- Gregorian leap-year rule. -/
def isLeap (y : Nat) : Bool :=
  (y % 4 == 0 && y % 100 != 0) || y % 400 == 0

/-- Number of days in a month (JavaScript `new Date(y, m, 0).getDate()`). -/
def daysInMonth (y mo : Nat) : Nat :=
  match mo with
  | 2 => if isLeap y then 29 else 28
  | 4 => 30
  | 6 => 30
  | 9 => 30
  | 11 => 30
  | _ => 31

/-- A valid calendar date. -/
def validDate (d : Date) : Prop :=
  1 ≤ d.month ∧ d.month ≤ 12 ∧ 1 ≤ d.day ∧ d.day ≤ daysInMonth d.year d.month

instance (d : Date) : Decidable (validDate d) := by
  unfold validDate; infer_instance

theorem validDate_mk (y mo dd : Nat) :
    validDate ⟨y, mo, dd⟩ ↔ 1 ≤ mo ∧ mo ≤ 12 ∧ 1 ≤ dd ∧ dd ≤ daysInMonth y mo :=
  Iff.rfl

theorem one_le_daysInMonth (y mo : Nat) : 1 ≤ daysInMonth y mo := by
  unfold daysInMonth
  split <;> first | omega | (split <;> omega)

theorem daysInMonth_le_31 (y mo : Nat) : daysInMonth y mo ≤ 31 := by
  unfold daysInMonth
  split <;> first | omega | (split <;> omega)

theorem twentyeight_le_daysInMonth (y mo : Nat) : 28 ≤ daysInMonth y mo := by
  unfold daysInMonth
  split <;> first | omega | (split <;> omega)

/-- Successor day, as JavaScript date normalization computes it. -/
def nextDay (d : Date) : Date :=
  if d.day < daysInMonth d.year d.month then ⟨d.year, d.month, d.day + 1⟩
  else if d.month < 12 then ⟨d.year, d.month + 1, 1⟩
  else ⟨d.year + 1, 1, 1⟩

/-- Predecessor day, as JavaScript date normalization computes it. -/
def prevDay (d : Date) : Date :=
  if 1 < d.day then ⟨d.year, d.month, d.day - 1⟩
  else if 1 < d.month then ⟨d.year, d.month - 1, daysInMonth d.year (d.month - 1)⟩
  else ⟨d.year - 1, 12, 31⟩

/-- Cumulative days before a month in a non-leap year. -/
def daysBeforeMonthCommon (mo : Nat) : Int :=
  match mo with
  | 1 => 0
  | 2 => 31
  | 3 => 59
  | 4 => 90
  | 5 => 120
  | 6 => 151
  | 7 => 181
  | 8 => 212
  | 9 => 243
  | 10 => 273
  | 11 => 304
  | 12 => 334
  | _ => 0

/-- Cumulative days before a month within year `y`. -/
def daysBeforeMonth (y mo : Nat) : Int :=
  daysBeforeMonthCommon mo + (if 3 ≤ mo ∧ isLeap y then 1 else 0)

/-- Days in years before year `y` (day 0 is 0001-01-01; floor division
makes the formula correct for year 0 as well). -/
def daysBeforeYear (y : Nat) : Int :=
  365 * ((y : Int) - 1) + ((y : Int) - 1) / 4 - ((y : Int) - 1) / 100
    + ((y : Int) - 1) / 400

/-- Linear day number of a date (0001-01-01 ↦ 0). -/
def dayNumber (d : Date) : Int :=
  daysBeforeYear d.year + daysBeforeMonth d.year d.month + ((d.day : Int) - 1)

/-- Day of week as JavaScript `Date.prototype.getDay` (0 = Sunday). -/
def dayOfWeek (d : Date) : Nat :=
  ((dayNumber d + 1) % 7).toNat

theorem daysBeforeYear_succ (y : Nat) :
    daysBeforeYear (y + 1) = daysBeforeYear y + 365 + (if isLeap y then 1 else 0) := by
  unfold daysBeforeYear isLeap
  split <;> rename_i h <;>
    simp only [Bool.or_eq_true, Bool.and_eq_true, beq_iff_eq, bne_iff_ne, ne_eq,
      Bool.not_eq_true, Bool.or_eq_false_iff, Bool.and_eq_false_iff,
      beq_eq_false_iff_ne, bne_eq_false_iff_eq] at h <;>
    push_cast <;>
    omega

theorem dayNumber_nextDay (d : Date) (hv : validDate d) :
    dayNumber (nextDay d) = dayNumber d + 1 := by
  obtain ⟨hm1, hm12, hd1, hdm⟩ := hv
  unfold nextDay
  split
  · simp only [dayNumber]
    push_cast
    omega
  · split
    · rename_i hlt hmo
      have hde : d.day = daysInMonth d.year d.month := by omega
      simp only [dayNumber, daysBeforeMonth]
      interval_cases h : d.month <;>
        simp_all [daysInMonth, daysBeforeMonthCommon] <;>
        first
          | omega
          | (split_ifs <;> push_cast <;> omega)
    · rename_i hlt hmo
      have hmeq : d.month = 12 := by omega
      have hde : d.day = 31 := by
        have h31 : daysInMonth d.year d.month = 31 := by rw [hmeq]; rfl
        omega
      simp only [dayNumber, hmeq, hde]
      rw [daysBeforeYear_succ]
      simp only [daysBeforeMonth, daysBeforeMonthCommon]
      have h31 : ¬ ((3:Nat) ≤ 1) := by omega
      have h312 : ((3:Nat) ≤ 12) := by omega
      simp only [h31, h312, false_and, true_and, if_false]
      split_ifs <;> push_cast <;> omega

theorem validDate_nextDay (d : Date) (hv : validDate d) :
    validDate (nextDay d) := by
  obtain ⟨hm1, hm12, hd1, hdm⟩ := hv
  unfold nextDay
  split
  · rw [validDate_mk]
    exact ⟨hm1, hm12, by omega, by omega⟩
  · split
    · rw [validDate_mk]
      exact ⟨by omega, by omega, le_refl 1, one_le_daysInMonth _ _⟩
    · rw [validDate_mk]
      exact ⟨by omega, by omega, le_refl 1, one_le_daysInMonth _ _⟩

theorem nextDay_prevDay (d : Date) (hv : validDate d)
    (hne : 1 ≤ d.year ∨ 1 < d.month ∨ 1 < d.day) :
    nextDay (prevDay d) = d ∧ validDate (prevDay d) := by
  obtain ⟨dy, dm, dd⟩ := d
  obtain ⟨hm1, hm12, hd1, hdm⟩ := hv
  dsimp only at hm1 hm12 hd1 hdm hne
  unfold prevDay
  dsimp only
  split
  · rename_i hday
    constructor
    · unfold nextDay
      dsimp only
      rw [if_pos (show dd - 1 < daysInMonth dy dm by omega)]
      simp only [Date.mk.injEq, true_and, and_true]
      omega
    · rw [validDate_mk]
      exact ⟨hm1, hm12, by omega, by omega⟩
  · split
    · rename_i hday hmon
      constructor
      · unfold nextDay
        dsimp only
        rw [if_neg (show ¬ daysInMonth dy (dm - 1) < daysInMonth dy (dm - 1) by omega)]
        rw [if_pos (show dm - 1 < 12 by omega)]
        simp only [Date.mk.injEq, true_and, and_true]
        omega
      · rw [validDate_mk]
        exact ⟨by omega, by omega, one_le_daysInMonth _ _, le_refl _⟩
    · rename_i hday hmon
      have hy : 1 ≤ dy := by omega
      constructor
      · unfold nextDay
        dsimp only
        rw [if_neg (show ¬ (31:Nat) < daysInMonth (dy - 1) 12 by
          have := daysInMonth_le_31 (dy - 1) 12; omega)]
        rw [if_neg (show ¬ (12:Nat) < 12 by omega)]
        simp only [Date.mk.injEq, true_and, and_true]
        omega
      · rw [validDate_mk]
        refine ⟨by omega, by omega, by omega, ?_⟩
        show (31:Nat) ≤ daysInMonth (dy - 1) 12
        rfl

theorem dayNumber_prevDay (d : Date) (hv : validDate d)
    (hne : 1 ≤ d.year ∨ 1 < d.month ∨ 1 < d.day) :
    dayNumber (prevDay d) = dayNumber d - 1 := by
  obtain ⟨heq, hval⟩ := nextDay_prevDay d hv hne
  have := dayNumber_nextDay (prevDay d) hval
  rw [heq] at this
  omega

/-- `k`-fold successor day (JavaScript `setDate(getDate() + k)`). -/
def nextDayIter : Nat → Date → Date
  | 0, d => d
  | k + 1, d => nextDayIter k (nextDay d)

/-- `k`-fold predecessor day (JavaScript `setDate(getDate() - k)`). -/
def prevDayIter : Nat → Date → Date
  | 0, d => d
  | k + 1, d => prevDayIter k (prevDay d)

theorem nextDayIter_spec (k : Nat) (d : Date) (hv : validDate d) :
    validDate (nextDayIter k d) ∧
      dayNumber (nextDayIter k d) = dayNumber d + k := by
  induction k generalizing d with
  | zero => simpa [nextDayIter] using hv
  | succ k ih =>
    obtain ⟨h1, h2⟩ := ih (nextDay d) (validDate_nextDay d hv)
    refine ⟨h1, ?_⟩
    simp only [nextDayIter] at *
    rw [h2, dayNumber_nextDay d hv]
    push_cast
    ring

theorem dayNumber_lower_bound (d : Date) (hv : validDate d) :
    -366 ≤ dayNumber d := by
  obtain ⟨hm1, hm12, hd1, hdm⟩ := hv
  have hy : daysBeforeYear d.year ≥ -366 := by
    unfold daysBeforeYear
    rcases Nat.eq_zero_or_pos d.year with h | h
    · rw [h]; decide
    · have : (1:Int) ≤ (d.year : Int) := by exact_mod_cast h
      omega
  have hmo : 0 ≤ daysBeforeMonth d.year d.month := by
    unfold daysBeforeMonth
    have : 0 ≤ daysBeforeMonthCommon d.month := by
      unfold daysBeforeMonthCommon
      split <;> omega
    split_ifs <;> omega
  unfold dayNumber
  omega

theorem dayNumber_year_one (y : Nat) (mo dd : Nat) (hy : 1 ≤ y) :
    0 ≤ dayNumber ⟨y, mo, dd⟩ - ((dd : Int) - 1) := by
  have hby : 0 ≤ daysBeforeYear y := by
    unfold daysBeforeYear
    have : (1:Int) ≤ (y : Int) := by exact_mod_cast hy
    omega
  have hmo : 0 ≤ daysBeforeMonth y mo := by
    unfold daysBeforeMonth
    have : 0 ≤ daysBeforeMonthCommon mo := by
      unfold daysBeforeMonthCommon
      split <;> omega
    split_ifs <;> omega
  unfold dayNumber
  dsimp only
  omega

theorem prevDayIter_spec (k : Nat) (d : Date) (hv : validDate d)
    (hbound : (k : Int) ≤ dayNumber d + 366) :
    validDate (prevDayIter k d) ∧
      dayNumber (prevDayIter k d) = dayNumber d - k := by
  induction k generalizing d with
  | zero => simpa [prevDayIter] using hv
  | succ k ih =>
    have hne : 1 ≤ d.year ∨ 1 < d.month ∨ 1 < d.day := by
      by_contra hcon
      push_neg at hcon
      obtain ⟨h0, h1, h2⟩ := hcon
      obtain ⟨hm1, hm12, hd1, hdm⟩ := hv
      have hy0 : d.year = 0 := by omega
      have hm0 : d.month = 1 := by omega
      have hd0 : d.day = 1 := by omega
      have hval : dayNumber d = -366 := by
        unfold dayNumber
        rw [hy0, hm0, hd0]
        decide
      push_cast at hbound
      omega
    obtain ⟨heq, hval⟩ := nextDay_prevDay d hv hne
    have hdn := dayNumber_prevDay d hv hne
    obtain ⟨h1, h2⟩ := ih (prevDay d) hval (by push_cast at hbound ⊢; omega)
    refine ⟨h1, ?_⟩
    simp only [prevDayIter] at *
    rw [h2, hdn]
    push_cast
    ring

theorem nextDayIter_add (a b : Nat) (d : Date) :
    nextDayIter (a + b) d = nextDayIter b (nextDayIter a d) := by
  induction a generalizing d with
  | zero => simp [nextDayIter]
  | succ a ih =>
    have : a + 1 + b = (a + b) + 1 := by omega
    rw [this]
    show nextDayIter (a + b) (nextDay d) = _
    rw [ih (nextDay d)]
    rfl

theorem prevDayIter_add (a b : Nat) (d : Date) :
    prevDayIter (a + b) d = prevDayIter b (prevDayIter a d) := by
  induction a generalizing d with
  | zero => simp [prevDayIter]
  | succ a ih =>
    have : a + 1 + b = (a + b) + 1 := by omega
    rw [this]
    show prevDayIter (a + b) (prevDay d) = _
    rw [ih (prevDay d)]
    rfl

theorem nextDayIter_prevDayIter_cancel (k : Nat) (d : Date) (hv : validDate d)
    (hbound : (k : Int) ≤ dayNumber d + 366) :
    nextDayIter k (prevDayIter k d) = d := by
  induction k generalizing d with
  | zero => rfl
  | succ k ih =>
    have hne : 1 ≤ d.year ∨ 1 < d.month ∨ 1 < d.day := by
      by_contra hcon
      push_neg at hcon
      obtain ⟨h0, h1, h2⟩ := hcon
      obtain ⟨hm1, hm12, hd1, hdm⟩ := hv
      have hy0 : d.year = 0 := by omega
      have hm0 : d.month = 1 := by omega
      have hd0 : d.day = 1 := by omega
      have hval : dayNumber d = -366 := by
        unfold dayNumber
        rw [hy0, hm0, hd0]
        decide
      push_cast at hbound
      omega
    obtain ⟨heq, hval⟩ := nextDay_prevDay d hv hne
    have hdn := dayNumber_prevDay d hv hne
    show nextDayIter (k + 1) (prevDayIter k (prevDay d)) = d
    rw [nextDayIter_add k 1]
    rw [ih (prevDay d) hval (by push_cast at hbound ⊢; omega)]
    show nextDay (prevDay d) = d
    exact heq

theorem nextDayIter_in_month (t : Nat) : ∀ (y mo dd : Nat),
    validDate ⟨y, mo, dd⟩ → dd + t ≤ daysInMonth y mo →
    nextDayIter t ⟨y, mo, dd⟩ = ⟨y, mo, dd + t⟩ := by
  induction t with
  | zero => intro y mo dd hv hle; rfl
  | succ t ih =>
    intro y mo dd hv hle
    rw [validDate_mk] at hv
    show nextDayIter t (nextDay ⟨y, mo, dd⟩) = _
    have hstep : nextDay ⟨y, mo, dd⟩ = ⟨y, mo, dd + 1⟩ := by
      unfold nextDay
      dsimp only
      rw [if_pos (show dd < daysInMonth y mo by omega)]
    rw [hstep]
    rw [ih y mo (dd + 1) (by rw [validDate_mk]; exact ⟨hv.1, hv.2.1, by omega, by omega⟩)
      (by omega)]
    simp only [Date.mk.injEq, true_and]
    omega

theorem prevDayIter_in_month (s : Nat) : ∀ (y mo dd : Nat),
    validDate ⟨y, mo, dd⟩ → s < dd →
    prevDayIter s ⟨y, mo, dd⟩ = ⟨y, mo, dd - s⟩ := by
  induction s with
  | zero => intro y mo dd hv hlt; simp [prevDayIter]
  | succ s ih =>
    intro y mo dd hv hlt
    rw [validDate_mk] at hv
    show prevDayIter s (prevDay ⟨y, mo, dd⟩) = _
    have hstep : prevDay ⟨y, mo, dd⟩ = ⟨y, mo, dd - 1⟩ := by
      unfold prevDay
      dsimp only
      rw [if_pos (show 1 < dd by omega)]
    rw [hstep]
    rw [ih y mo (dd - 1) (by rw [validDate_mk]; exact ⟨hv.1, hv.2.1, by omega, by omega⟩)
      (by omega)]
    simp only [Date.mk.injEq, true_and]
    omega

theorem nextDay_month_end (y mo : Nat) (h12 : mo < 12) :
    nextDay ⟨y, mo, daysInMonth y mo⟩ = ⟨y, mo + 1, 1⟩ := by
  unfold nextDay
  dsimp only
  rw [if_neg (lt_irrefl _), if_pos h12]

theorem nextDay_year_end (y : Nat) :
    nextDay ⟨y, 12, 31⟩ = ⟨y + 1, 1, 1⟩ := by
  unfold nextDay
  dsimp only
  rw [show daysInMonth y 12 = 31 from rfl]
  rw [if_neg (lt_irrefl _), if_neg (by omega)]

theorem prevDay_month_start (y mo : Nat) (h2 : 2 ≤ mo) :
    prevDay ⟨y, mo, 1⟩ = ⟨y, mo - 1, daysInMonth y (mo - 1)⟩ := by
  unfold prevDay
  dsimp only
  rw [if_neg (by omega), if_pos (by omega)]

theorem prevDay_jan (y : Nat) :
    prevDay ⟨y, 1, 1⟩ = ⟨y - 1, 12, 31⟩ := by
  unfold prevDay
  dsimp only
  rw [if_neg (by omega), if_neg (by omega)]

/-- Where `t` forward steps from the first of a month land, for offsets
within a 6-week grid: still inside the month, or in the following
month. -/
theorem monthCell_next (y mo t : Nat) (hm1 : 1 ≤ mo) (hm12 : mo ≤ 12)
    (ht : t ≤ 41) :
    (t < daysInMonth y mo ∧ nextDayIter t ⟨y, mo, 1⟩ = ⟨y, mo, t + 1⟩) ∨
    (daysInMonth y mo ≤ t ∧
      ((mo < 12 ∧
          nextDayIter t ⟨y, mo, 1⟩ = ⟨y, mo + 1, t - daysInMonth y mo + 1⟩) ∨
       (mo = 12 ∧
          nextDayIter t ⟨y, mo, 1⟩ = ⟨y + 1, 1, t - daysInMonth y mo + 1⟩))) := by
  have hL28 := twentyeight_le_daysInMonth y mo
  have hL31 := daysInMonth_le_31 y mo
  have hvF : validDate ⟨y, mo, 1⟩ := by
    rw [validDate_mk]
    exact ⟨hm1, hm12, le_refl 1, one_le_daysInMonth y mo⟩
  rcases Nat.lt_or_ge t (daysInMonth y mo) with hlt | hge
  · left
    refine ⟨hlt, ?_⟩
    rw [nextDayIter_in_month t y mo 1 hvF (by omega)]
    simp only [Date.mk.injEq, true_and]
    omega
  · right
    refine ⟨hge, ?_⟩
    have h1 : nextDayIter t ⟨y, mo, 1⟩ =
        nextDayIter (t - daysInMonth y mo + 1) (nextDayIter (daysInMonth y mo - 1) ⟨y, mo, 1⟩) := by
      conv_lhs => rw [show t = (daysInMonth y mo - 1) + (t - daysInMonth y mo + 1) from by omega]
      rw [nextDayIter_add]
    have h2 : nextDayIter (daysInMonth y mo - 1) ⟨y, mo, 1⟩ = ⟨y, mo, daysInMonth y mo⟩ := by
      rw [nextDayIter_in_month _ y mo 1 hvF (by omega)]
      simp only [Date.mk.injEq, true_and]
      omega
    rw [h1, h2]
    have hpeel : nextDayIter (t - daysInMonth y mo + 1) ⟨y, mo, daysInMonth y mo⟩ =
        nextDayIter (t - daysInMonth y mo) (nextDay ⟨y, mo, daysInMonth y mo⟩) := rfl
    rw [hpeel]
    rcases Nat.lt_or_ge mo 12 with hmo | hmo
    · left
      refine ⟨hmo, ?_⟩
      rw [nextDay_month_end y mo hmo]
      have hv2 : validDate ⟨y, mo + 1, 1⟩ := by
        rw [validDate_mk]
        exact ⟨by omega, by omega, le_refl 1, one_le_daysInMonth _ _⟩
      rw [nextDayIter_in_month _ y (mo + 1) 1 hv2
        (by have := twentyeight_le_daysInMonth y (mo + 1); omega)]
      simp only [Date.mk.injEq, true_and]
      omega
    · right
      have hmo12 : mo = 12 := by omega
      subst hmo12
      refine ⟨rfl, ?_⟩
      rw [show daysInMonth y 12 = 31 from rfl] at hge ⊢
      rw [nextDay_year_end y]
      have hv2 : validDate ⟨y + 1, 1, 1⟩ := by
        rw [validDate_mk]
        exact ⟨le_refl 1, by omega, le_refl 1, one_le_daysInMonth _ _⟩
      rw [nextDayIter_in_month _ (y + 1) 1 1 hv2
        (by have := twentyeight_le_daysInMonth (y + 1) 1; omega)]
      simp only [Date.mk.injEq, true_and]
      omega

/-- Where `s` backward steps (1 ≤ s ≤ 6) from the first of a month land:
in the previous month (or December of the previous year). -/
theorem monthCell_prev (y mo s : Nat) (hm1 : 1 ≤ mo) (hm12 : mo ≤ 12)
    (hs1 : 1 ≤ s) (hs6 : s ≤ 6) :
    (2 ≤ mo ∧
        prevDayIter s ⟨y, mo, 1⟩ = ⟨y, mo - 1, daysInMonth y (mo - 1) - (s - 1)⟩) ∨
    (mo = 1 ∧ prevDayIter s ⟨y, mo, 1⟩ = ⟨y - 1, 12, 31 - (s - 1)⟩) := by
  have hpeel : prevDayIter s ⟨y, mo, 1⟩ = prevDayIter (s - 1) (prevDay ⟨y, mo, 1⟩) := by
    conv_lhs => rw [show s = (s - 1) + 1 from by omega]
    rfl
  rcases Nat.lt_or_ge mo 2 with hmo | hmo
  · right
    have hmo1 : mo = 1 := by omega
    subst hmo1
    refine ⟨rfl, ?_⟩
    rw [hpeel, prevDay_jan y]
    have hv2 : validDate ⟨y - 1, 12, 31⟩ := by
      rw [validDate_mk]
      exact ⟨by omega, le_refl 12, by omega, le_refl _⟩
    rw [prevDayIter_in_month _ (y - 1) 12 31 hv2 (by omega)]
  · left
    refine ⟨hmo, ?_⟩
    rw [hpeel, prevDay_month_start y mo hmo]
    have h28 := twentyeight_le_daysInMonth y (mo - 1)
    have hv2 : validDate ⟨y, mo - 1, daysInMonth y (mo - 1)⟩ := by
      rw [validDate_mk]
      exact ⟨by omega, by omega, by omega, le_refl _⟩
    rw [prevDayIter_in_month _ y (mo - 1) (daysInMonth y (mo - 1)) hv2 (by omega)]

/-! ## Session data model

Embeds a row of the `support_sessions` table. DB `TIME` columns are
modelled as minutes of the day; identifiers (UUIDs in the source) are
modelled as opaque naturals. -/

inductive SessionStatus
  | planned
  | completed
  | cancelled
  | no_show
deriving DecidableEq, Repr

structure Session where
  id : Nat
  resident_id : Nat
  support_worker_id : Nat
  property_id : Nat
  support_type : String
  session_date : Date
  start_time : Nat
  end_time : Nat
  duration_minutes : Int
  status : SessionStatus
  notes : Option String
  created_by : Nat
deriving DecidableEq, Repr

/-! ## Calendar grid builder (`src/routes/calendar.js`)

`generateMonthlyCalendar` and `generateWeeklyCalendar` are translated
from the source; the wall clock read (`new Date()`) is passed in as the
`today` parameter. The `sessionsByDate` object built by the source
groups the session list by date key preserving input order, so looking
up a key yields exactly the input-order sublist with that
`session_date`; `sessionsOn` embeds that lookup. -/

def sessionsOn (sessions : List Session) (d : Date) : List Session :=
  sessions.filter (fun s => s.session_date == d)

structure DayCell where
  date : Nat
  fullDate : Date
  isCurrentMonth : Bool
  isToday : Bool
  sessions : List Session
deriving DecidableEq, Repr

instance : Inhabited DayCell :=
  ⟨⟨0, ⟨0, 0, 0⟩, false, false, []⟩⟩

def generateMonthlyCalendar (today : Date) (year month : Nat)
    (sessions : List Session) : List (List DayCell) :=
  let firstDay : Date := ⟨year, month, 1⟩
  let startDate := prevDayIter (dayOfWeek firstDay) firstDay
  (List.range 6).map (fun week =>
    (List.range 7).map (fun day =>
      let currentDate := nextDayIter (week * 7 + day) startDate
      { date := currentDate.day
        fullDate := currentDate
        isCurrentMonth := currentDate.month == month
        isToday := currentDate == today
        sessions := sessionsOn sessions currentDate }))

/-- `hour.toString().padStart(2, '0')`. -/
def pad2 (n : Nat) : String :=
  if (toString n).length < 2 then "0" ++ toString n else toString n

def timeString (hour minute : Nat) : String :=
  pad2 hour ++ ":" ++ pad2 minute

/-- The weekly time-slot loop: hours 9..18, minutes 0 and 30, with the
inner-loop break that stops at 18:00 (no 18:30 slot). -/
def weeklyTimeSlots : List String :=
  ((List.range 10).map (fun i => 9 + i)).flatMap (fun hour =>
    (([0, 30].filter (fun minute => !(hour == 18 && minute != 0)))).map
      (fun minute => timeString hour minute))

structure WeeklyDayCell where
  date : Nat
  fullDate : Date
  isToday : Bool
  sessions : List Session
deriving DecidableEq, Repr

structure WeeklyCalendar where
  days : List WeeklyDayCell
  timeSlots : List String
deriving DecidableEq, Repr

def generateWeeklyCalendar (today startDate : Date)
    (sessions : List Session) : WeeklyCalendar :=
  { timeSlots := weeklyTimeSlots
    days := (List.range 7).map (fun i =>
      let date := nextDayIter i startDate
      { date := date.day
        fullDate := date
        isToday := date == today
        sessions := sessions.filter (fun s => s.session_date == date) }) }

/-! ## Calendar navigation (`generateNavigation` in calendar.js)

The source dispatches on the view string and computes prev/next anchors;
each branch is a pure function of the anchor, embedded separately. -/

structure MonthAnchor where
  year : Nat
  month : Nat
deriving DecidableEq, Repr

def generateNavigationMonthly (year month : Nat) : MonthAnchor × MonthAnchor :=
  let prevMonth := if month = 1 then 12 else month - 1
  let prevYear := if month = 1 then year - 1 else year
  let nextMonth := if month = 12 then 1 else month + 1
  let nextYear := if month = 12 then year + 1 else year
  (⟨prevYear, prevMonth⟩, ⟨nextYear, nextMonth⟩)

def generateNavigationWeekly (week : Date) : Date × Date :=
  (prevDayIter 7 week, nextDayIter 7 week)

def generateNavigationDaily (date : Date) : Date × Date :=
  (prevDayIter 1 date, nextDayIter 1 date)

theorem dayOfWeek_lt_7 (d : Date) : dayOfWeek d < 7 := by
  unfold dayOfWeek
  omega

theorem dayNumber_first_nonneg (year month : Nat) (hy : 1 ≤ year) :
    0 ≤ dayNumber ⟨year, month, 1⟩ := by
  have := dayNumber_year_one year month 1 hy
  push_cast at this
  omega

theorem gridCellDate (year month k j : Nat) (hy : 1 ≤ year) (hm1 : 1 ≤ month)
    (hm12 : month ≤ 12) (hk : k ≤ 6) (hj : j ≤ 41) :
    (j < k → nextDayIter j (prevDayIter k ⟨year, month, 1⟩) =
        prevDayIter (k - j) ⟨year, month, 1⟩) ∧
    (k ≤ j → nextDayIter j (prevDayIter k ⟨year, month, 1⟩) =
        nextDayIter (j - k) ⟨year, month, 1⟩) := by
  have hvF : validDate ⟨year, month, 1⟩ := by
    rw [validDate_mk]
    exact ⟨hm1, hm12, le_refl 1, one_le_daysInMonth _ _⟩
  have hF0 := dayNumber_first_nonneg year month hy
  constructor
  · intro hjk
    have hsplit : prevDayIter k ⟨year, month, 1⟩ =
        prevDayIter j (prevDayIter (k - j) ⟨year, month, 1⟩) := by
      conv_lhs => rw [show k = (k - j) + j from by omega]
      rw [prevDayIter_add]
    rw [hsplit]
    have hmid := prevDayIter_spec (k - j) ⟨year, month, 1⟩ hvF (by omega)
    exact nextDayIter_prevDayIter_cancel j (prevDayIter (k - j) ⟨year, month, 1⟩)
      hmid.1 (by rw [hmid.2]; omega)
  · intro hkj
    have hsplit : nextDayIter j (prevDayIter k ⟨year, month, 1⟩) =
        nextDayIter (j - k) (nextDayIter k (prevDayIter k ⟨year, month, 1⟩)) := by
      conv_lhs => rw [show j = k + (j - k) from by omega]
      rw [nextDayIter_add]
    rw [hsplit, nextDayIter_prevDayIter_cancel k ⟨year, month, 1⟩ hvF
      (by omega)]

/-- C4: For every year and month, the monthly calendar grid consists of
exactly 6 week-rows of 7 day-cells each (42 cells), the first cell's
date is the Sunday on or before the 1st of the target month, each cell
is flagged `isCurrentMonth` exactly when the cell's date falls in the
target month, and each cell's sessions are exactly the input sessions
whose `session_date` equals the cell's date. -/
theorem generateMonthlyCalendar_correct (today : Date) (year month : Nat)
    (sessions : List Session) (hy : 1 ≤ year) (hm1 : 1 ≤ month)
    (hm12 : month ≤ 12) :
    (generateMonthlyCalendar today year month sessions).length = 6 ∧
    (∀ w ∈ generateMonthlyCalendar today year month sessions, w.length = 7) ∧
    (dayOfWeek (((generateMonthlyCalendar today year month sessions).headI).headI).fullDate = 0 ∧
      dayNumber (((generateMonthlyCalendar today year month sessions).headI).headI).fullDate ≤
        dayNumber ⟨year, month, 1⟩ ∧
      dayNumber ⟨year, month, 1⟩ -
        dayNumber (((generateMonthlyCalendar today year month sessions).headI).headI).fullDate < 7) ∧
    (∀ w ∈ generateMonthlyCalendar today year month sessions, ∀ c ∈ w,
      (c.isCurrentMonth = true ↔
        (c.fullDate.year = year ∧ c.fullDate.month = month))) ∧
    (∀ w ∈ generateMonthlyCalendar today year month sessions, ∀ c ∈ w,
      c.sessions = sessions.filter (fun s => s.session_date == c.fullDate)) := by
  have hvF : validDate ⟨year, month, 1⟩ := by
    rw [validDate_mk]
    exact ⟨hm1, hm12, le_refl 1, one_le_daysInMonth _ _⟩
  have hF0 := dayNumber_first_nonneg year month hy
  have hk7 := dayOfWeek_lt_7 ⟨year, month, 1⟩
  have hkdef : (dayOfWeek ⟨year, month, 1⟩ : Int) =
      (dayNumber ⟨year, month, 1⟩ + 1) % 7 := by
    unfold dayOfWeek
    omega
  have hstart := prevDayIter_spec (dayOfWeek ⟨year, month, 1⟩) ⟨year, month, 1⟩ hvF
    (by omega)
  refine ⟨?_, ?_, ⟨?_, ?_, ?_⟩, ?_, ?_⟩
  · simp [generateMonthlyCalendar]
  · intro w hw
    simp only [generateMonthlyCalendar, List.mem_map] at hw
    obtain ⟨week, hweek, rfl⟩ := hw
    simp
  · have hc00 : (((generateMonthlyCalendar today year month sessions).headI).headI).fullDate
        = prevDayIter (dayOfWeek ⟨year, month, 1⟩) ⟨year, month, 1⟩ := rfl
    rw [hc00]
    show ((dayNumber (prevDayIter (dayOfWeek ⟨year, month, 1⟩) ⟨year, month, 1⟩) + 1) % 7).toNat = 0
    rw [hstart.2]
    omega
  · have hc00 : (((generateMonthlyCalendar today year month sessions).headI).headI).fullDate
        = prevDayIter (dayOfWeek ⟨year, month, 1⟩) ⟨year, month, 1⟩ := rfl
    rw [hc00, hstart.2]
    omega
  · have hc00 : (((generateMonthlyCalendar today year month sessions).headI).headI).fullDate
        = prevDayIter (dayOfWeek ⟨year, month, 1⟩) ⟨year, month, 1⟩ := rfl
    rw [hc00, hstart.2]
    omega
  · intro w hw c hc
    simp only [generateMonthlyCalendar, List.mem_map, List.mem_range] at hw
    obtain ⟨week, hweek, rfl⟩ := hw
    simp only [List.mem_map, List.mem_range] at hc
    obtain ⟨day, hday, rfl⟩ := hc
    simp only [beq_iff_eq]
    have hj41 : week * 7 + day ≤ 41 := by omega
    have hcell := gridCellDate year month (dayOfWeek ⟨year, month, 1⟩)
      (week * 7 + day) hy hm1 hm12 (by omega) hj41
    constructor
    · intro hmoeq
      refine ⟨?_, hmoeq⟩
      rcases Nat.lt_or_ge (week * 7 + day) (dayOfWeek ⟨year, month, 1⟩) with hlt | hge
      · exfalso
        rw [hcell.1 hlt] at hmoeq
        rcases monthCell_prev year month (dayOfWeek ⟨year, month, 1⟩ - (week * 7 + day))
            hm1 hm12 (by omega) (by omega) with ⟨h2, heq⟩ | ⟨h1, heq⟩
        · rw [heq] at hmoeq
          simp only at hmoeq
          omega
        · rw [heq] at hmoeq
          simp only at hmoeq
          omega
      · rw [hcell.2 hge] at hmoeq ⊢
        rcases monthCell_next year month (week * 7 + day - dayOfWeek ⟨year, month, 1⟩)
            hm1 hm12 (by omega) with ⟨hlt2, heq⟩ | ⟨hge2, ⟨hmo, heq⟩ | ⟨hmo, heq⟩⟩
        · rw [heq]
        · exfalso
          rw [heq] at hmoeq
          simp only at hmoeq
          omega
        · exfalso
          rw [heq] at hmoeq
          simp only at hmoeq
          omega
    · exact fun h => h.2
  · intro w hw c hc
    simp only [generateMonthlyCalendar, List.mem_map, List.mem_range] at hw
    obtain ⟨week, hweek, rfl⟩ := hw
    simp only [List.mem_map, List.mem_range] at hc
    obtain ⟨day, hday, rfl⟩ := hc
    rfl

/-- C4 witness: the February 2024 grid has 6 rows of 7 cells and its
first cell is a Sunday on or before 2024-02-01. -/
theorem generateMonthlyCalendar_correct_witness :
    (generateMonthlyCalendar ⟨2024, 2, 14⟩ 2024 2 []).length = 6 ∧
    dayOfWeek (((generateMonthlyCalendar ⟨2024, 2, 14⟩ 2024 2 []).headI).headI).fullDate = 0 ∧
    dayNumber (((generateMonthlyCalendar ⟨2024, 2, 14⟩ 2024 2 []).headI).headI).fullDate ≤
      dayNumber ⟨2024, 2, 1⟩ := by
  have h := generateMonthlyCalendar_correct ⟨2024, 2, 14⟩ 2024 2 []
    (by decide) (by decide) (by decide)
  exact ⟨h.1, h.2.2.1.1, h.2.2.1.2.1⟩

/-- C5: calendar navigation is a pure function: monthly next of month 12
is month 1 of year+1, monthly prev of month 1 is month 12 of year−1,
other months change only the month by ±1; weekly prev/next shift the
anchor by exactly 7 days; daily prev/next shift it by exactly 1 day. -/
theorem generateNavigation_correct :
    (∀ year month : Nat, 1 ≤ year → 1 ≤ month → month ≤ 12 →
      (generateNavigationMonthly year month).2 =
        (if month = 12 then ⟨year + 1, 1⟩ else ⟨year, month + 1⟩) ∧
      (generateNavigationMonthly year month).1 =
        (if month = 1 then ⟨year - 1, 12⟩ else ⟨year, month - 1⟩)) ∧
    (∀ week : Date, validDate week → 1 ≤ dayNumber week →
      dayNumber (generateNavigationWeekly week).1 = dayNumber week - 7 ∧
      dayNumber (generateNavigationWeekly week).2 = dayNumber week + 7) ∧
    (∀ date : Date, validDate date → 0 ≤ dayNumber date →
      dayNumber (generateNavigationDaily date).1 = dayNumber date - 1 ∧
      dayNumber (generateNavigationDaily date).2 = dayNumber date + 1) := by
  refine ⟨?_, ?_, ?_⟩
  · intro year month hy hm1 hm12
    unfold generateNavigationMonthly
    constructor
    · by_cases h12 : month = 12
      · simp [h12]
      · simp [h12]
    · by_cases h1 : month = 1
      · simp [h1]
      · simp [h1]
  · intro week hv hb
    unfold generateNavigationWeekly
    have hprev := prevDayIter_spec 7 week hv (by omega)
    have hnext := nextDayIter_spec 7 week hv
    exact ⟨by rw [hprev.2]; push_cast; ring, by rw [hnext.2]; push_cast; ring⟩
  · intro date hv hb
    unfold generateNavigationDaily
    have hprev := prevDayIter_spec 1 date hv (by omega)
    have hnext := nextDayIter_spec 1 date hv
    exact ⟨by rw [hprev.2]; push_cast; ring, by rw [hnext.2]; push_cast; ring⟩

/-- C5 witness: month rollover at 2024-12 and 2024-01, and a concrete
weekly/daily shift. -/
theorem generateNavigation_correct_witness :
    (generateNavigationMonthly 2024 12).2 = ⟨2025, 1⟩ ∧
    (generateNavigationMonthly 2024 1).1 = ⟨2023, 12⟩ ∧
    dayNumber (generateNavigationWeekly ⟨2024, 3, 1⟩).2 = dayNumber ⟨2024, 3, 1⟩ + 7 ∧
    dayNumber (generateNavigationDaily ⟨2024, 3, 1⟩).1 = dayNumber ⟨2024, 3, 1⟩ - 1 := by
  obtain ⟨hm, hw, hd⟩ := generateNavigation_correct
  refine ⟨?_, ?_, ?_, ?_⟩
  · have := (hm 2024 12 (by decide) (by decide) (by decide)).1
    simpa using this
  · have := (hm 2024 1 (by decide) (by decide) (by decide)).2
    simpa using this
  · exact (hw ⟨2024, 3, 1⟩ (by decide) (by decide)).2
  · exact (hd ⟨2024, 3, 1⟩ (by decide) (by decide)).1

/-- C9: the weekly grid's time-slot labels are exactly the half-hour
labels from 09:00 to 18:00 inclusive in ascending order (19 slots),
with no slot past 18:00, independent of the input sessions. -/
theorem generateWeeklyCalendar_timeSlots (today startDate : Date)
    (sessions : List Session) :
    (generateWeeklyCalendar today startDate sessions).timeSlots =
      ["09:00", "09:30", "10:00", "10:30", "11:00", "11:30", "12:00", "12:30",
       "13:00", "13:30", "14:00", "14:30", "15:00", "15:30", "16:00", "16:30",
       "17:00", "17:30", "18:00"] ∧
    (generateWeeklyCalendar today startDate sessions).timeSlots.length = 19 := by
  exact ⟨rfl, rfl⟩

/-! ## Session create/update/delete routes (sessions router)

The create handler validates the posted fields, rejects
`start_time >= end_time` by JavaScript string comparison on the raw
`HH:MM` strings, runs the SQL conflict query, and inserts the row with
the client-supplied `duration_minutes`. The update handler re-runs the
field validators (status mandatory) and then applies the UPDATE with no
time-order check and no conflict re-check. Times stored in the DB
`TIME` columns are modelled as minutes of the day. -/

/-- JavaScript `<` on strings: lexicographic by code unit. -/
def jsStrLt : List Char → List Char → Bool
  | [], [] => false
  | [], _ :: _ => true
  | _ :: _, [] => false
  | a :: as, b :: bs =>
    if a.toNat < b.toNat then true
    else if b.toNat < a.toNat then false
    else jsStrLt as bs

def charBetween (lo hi c : Char) : Bool :=
  decide (lo.toNat ≤ c.toNat) && decide (c.toNat ≤ hi.toNat)

def minuteOk (m1 m2 : Char) : Bool :=
  charBetween '0' '5' m1 && charBetween '0' '9' m2

/-- The validator regex `^([01]?[0-9]|2[0-3]):[0-5][0-9]$`: one- or
two-digit hour (two-digit capped at 23), colon, two-digit minute. -/
def timeCharsValid : List Char → Bool
  | [h, c, m1, m2] =>
      charBetween '0' '9' h && (c == ':') && minuteOk m1 m2
  | [h1, h2, c, m1, m2] =>
      (((h1 == '0' || h1 == '1') && charBetween '0' '9' h2) ||
        (h1 == '2' && charBetween '0' '3' h2)) &&
      (c == ':') && minuteOk m1 m2
  | _ => false

def digitVal (c : Char) : Nat := c.toNat - '0'.toNat

/-- The minutes-of-day value the DB `TIME` column holds for a valid
`HH:MM` or `H:MM` string. -/
def parseTimeChars : List Char → Nat
  | [h, _, m1, m2] => digitVal h * 60 + (digitVal m1 * 10 + digitVal m2)
  | [h1, h2, _, m1, m2] =>
      (digitVal h1 * 10 + digitVal h2) * 60 + (digitVal m1 * 10 + digitVal m2)
  | _ => 0

structure SessionInput where
  resident_id : Nat
  support_worker_id : Nat
  property_id : Nat
  support_type : String
  session_date : Date
  start_time : List Char
  end_time : List Char
  duration_minutes : Int
  status : Option SessionStatus
  notes : Option String
deriving DecidableEq, Repr

def supportTypes : List String :=
  ["mental_health", "domestic_independence", "activity_group"]

/-- The express-validator chain on the create route: `support_type` in
the fixed set, `session_date` a calendar date, start/end matching the
time regex, `duration_minutes` an integer in [15, 480]. UUID-format
checks on the three ids are subsumed by the opaque id type, and the
`status` enum check by the `SessionStatus` type. -/
def validSessionFields (inp : SessionInput) : Bool :=
  supportTypes.contains inp.support_type &&
  decide (validDate inp.session_date) &&
  timeCharsValid inp.start_time &&
  timeCharsValid inp.end_time &&
  decide (15 ≤ inp.duration_minutes) &&
  decide (inp.duration_minutes ≤ 480)

/-- The overlap disjunction in the conflict query, over DB `TIME`
values, with `cs`/`ce` the candidate's start/end ($3/$4):
`(start_time <= $3 AND end_time > $3) OR (start_time < $4 AND
end_time >= $4) OR (start_time >= $3 AND end_time <= $4)`. -/
def sqlConflictCond (xs xe cs ce : Nat) : Bool :=
  (decide (xs ≤ cs) && decide (xe > cs)) ||
  (decide (xs < ce) && decide (xe ≥ ce)) ||
  (decide (xs ≥ cs) && decide (xe ≤ ce))

/-- `status NOT IN ('cancelled', 'no_show')`. -/
def isActiveStatus (st : SessionStatus) : Bool :=
  !(st == SessionStatus.cancelled || st == SessionStatus.no_show)

/-- The rows returned by the conflict query for a candidate. -/
def conflictingSessions (store : List Session) (workerId : Nat) (date : Date)
    (cs ce : Nat) : List Session :=
  store.filter (fun s =>
    s.support_worker_id == workerId && s.session_date == date &&
    isActiveStatus s.status && sqlConflictCond s.start_time s.end_time cs ce)

inductive CreateResult
  | created (s : Session)
  | errorPage (msg : String)
deriving DecidableEq, Repr

/-- POST /sessions/create. `newId` models the store-generated row id and
`userId` the authenticated admin (`created_by`). -/
def createSession (store : List Session) (newId userId : Nat)
    (inp : SessionInput) : CreateResult × List Session :=
  if !(validSessionFields inp) then
    (.errorPage "Please provide valid session information", store)
  else if !(jsStrLt inp.start_time inp.end_time) then
    (.errorPage "End time must be after start time", store)
  else
    let cs := parseTimeChars inp.start_time
    let ce := parseTimeChars inp.end_time
    if conflictingSessions store inp.support_worker_id inp.session_date cs ce ≠ [] then
      (.errorPage "Support worker is already scheduled at this time", store)
    else
      let s : Session :=
        { id := newId
          resident_id := inp.resident_id
          support_worker_id := inp.support_worker_id
          property_id := inp.property_id
          support_type := inp.support_type
          session_date := inp.session_date
          start_time := cs
          end_time := ce
          duration_minutes := inp.duration_minutes
          status := inp.status.getD SessionStatus.planned
          notes := inp.notes
          created_by := userId }
      (.created s, store ++ [s])

inductive UpdateResult
  | redirected (id : Nat)
  | errorPage (msg : String)
deriving DecidableEq, Repr

/-- The edit route's validator chain: same fields, but `status` is
mandatory. -/
def validUpdateFields (inp : SessionInput) : Bool :=
  validSessionFields inp && inp.status.isSome

/-- POST /sessions/:id/edit: on passing validation the UPDATE is applied
directly — the handler performs no end-after-start check and no
conflict re-check. -/
def updateSession (store : List Session) (sessionId : Nat)
    (inp : SessionInput) : UpdateResult × List Session :=
  if !(validUpdateFields inp) then
    (.errorPage "Please provide valid session information", store)
  else
    (.redirected sessionId,
     store.map (fun s =>
       if s.id == sessionId then
         { s with
           resident_id := inp.resident_id
           support_worker_id := inp.support_worker_id
           property_id := inp.property_id
           support_type := inp.support_type
           session_date := inp.session_date
           start_time := parseTimeChars inp.start_time
           end_time := parseTimeChars inp.end_time
           duration_minutes := inp.duration_minutes
           status := inp.status.getD SessionStatus.planned
           notes := inp.notes }
       else s))

/-- POST /sessions/:id/delete: `DELETE FROM support_sessions WHERE id = $1`. -/
def deleteSession (store : List Session) (sessionId : Nat) : List Session :=
  store.filter (fun s => !(s.id == sessionId))

/-- The scheduling invariant: no two distinct active sessions of one
worker on one date have overlapping [start, end) intervals. -/
def activeOverlapFree (store : List Session) : Prop :=
  ∀ s1 ∈ store, ∀ s2 ∈ store,
    s1.id ≠ s2.id →
    s1.support_worker_id = s2.support_worker_id →
    s1.session_date = s2.session_date →
    isActiveStatus s1.status = true →
    isActiveStatus s2.status = true →
    ¬ (s1.start_time < s2.end_time ∧ s2.start_time < s1.end_time)

instance (store : List Session) : Decidable (activeOverlapFree store) := by
  unfold activeOverlapFree
  infer_instance

/-- C2: for every candidate interval with start < end and every existing
interval with start < end, the SQL conflict disjunction flags the pair
iff `candidate.start < existing.end ∧ existing.start < candidate.end`;
consequently back-to-back pairs are never flagged. -/
theorem sqlConflictCond_iff_overlap (cs ce xs xe : Nat)
    (hc : cs < ce) (hx : xs < xe) :
    (sqlConflictCond xs xe cs ce = true ↔ (cs < xe ∧ xs < ce)) ∧
    ((ce = xs ∨ xe = cs) → sqlConflictCond xs xe cs ce = false) := by
  have hiff : sqlConflictCond xs xe cs ce = true ↔ (cs < xe ∧ xs < ce) := by
    unfold sqlConflictCond
    simp only [Bool.or_eq_true, Bool.and_eq_true, decide_eq_true_eq]
    omega
  refine ⟨hiff, ?_⟩
  intro h
  cases h2 : sqlConflictCond xs xe cs ce
  · rfl
  · exfalso
    have := hiff.mp h2
    omega

/-- C2 witness: a back-to-back pair (existing 10:00–11:00 after a
candidate 09:00–10:00) is not flagged. -/
theorem sqlConflictCond_iff_overlap_witness :
    (sqlConflictCond 600 660 540 600 = true ↔ (540 < 660 ∧ 600 < 600)) ∧
    ((600 = 600 ∨ 660 = 540) → sqlConflictCond 600 660 540 600 = false) :=
  sqlConflictCond_iff_overlap 540 600 600 660 (by decide) (by decide)

/-- Candidate input 09:30–10:30 for worker 7 on 2024-03-01. -/
def c3Input : SessionInput :=
  { resident_id := 1
    support_worker_id := 7
    property_id := 3
    support_type := "mental_health"
    session_date := ⟨2024, 3, 1⟩
    start_time := ['0', '9', ':', '3', '0']
    end_time := ['1', '0', ':', '3', '0']
    duration_minutes := 60
    status := none
    notes := none }

/-- An existing 09:00–10:00 planned session for worker 7 on 2024-03-01,
with a chosen id. -/
def c3Existing (i : Nat) : Session :=
  { id := i
    resident_id := 2
    support_worker_id := 7
    property_id := 3
    support_type := "mental_health"
    session_date := ⟨2024, 3, 1⟩
    start_time := 540
    end_time := 600
    duration_minutes := 60
    status := SessionStatus.planned
    notes := none
    created_by := 1 }

/-- C3 counterexample: two stores whose only (and hence first)
overlapping session differ in id produce identical create responses, a
fixed message carrying no session id — so the response cannot surface
the conflicting session's id. -/
theorem createSession_conflict_id_not_surfaced :
    (createSession [c3Existing 1] 99 1 c3Input).1 =
      (createSession [c3Existing 2] 99 1 c3Input).1 ∧
    (createSession [c3Existing 1] 99 1 c3Input).1 =
      CreateResult.errorPage "Support worker is already scheduled at this time" ∧
    (c3Existing 1).id ≠ (c3Existing 2).id := by
  refine ⟨rfl, rfl, by decide⟩

/-- C3 amended: whenever the input passes validation and at least one
overlapping active session exists for the candidate's worker and date,
creation fails with the fixed message
"Support worker is already scheduled at this time" and the store is
unchanged; no session id is part of the response. -/
theorem createSession_conflict_error (store : List Session) (newId userId : Nat)
    (inp : SessionInput) (hval : validSessionFields inp = true)
    (hord : jsStrLt inp.start_time inp.end_time = true)
    (hconf : conflictingSessions store inp.support_worker_id inp.session_date
      (parseTimeChars inp.start_time) (parseTimeChars inp.end_time) ≠ []) :
    createSession store newId userId inp =
      (CreateResult.errorPage "Support worker is already scheduled at this time",
        store) := by
  unfold createSession
  simp [hval, hord, hconf]

/-- C3 amended witness: the 09:30–10:30 candidate against the existing
09:00–10:00 session. -/
theorem createSession_conflict_error_witness :
    createSession [c3Existing 1] 99 1 c3Input =
      (CreateResult.errorPage "Support worker is already scheduled at this time",
        [c3Existing 1]) :=
  createSession_conflict_error [c3Existing 1] 99 1 c3Input
    (by decide) (by decide) (by decide)

/-- Input with start_time "10:00" and end_time "9:30": the single-digit
hour is accepted by the validator regex, and the string comparison
"10:00" >= "9:30" is false (code unit '1' < '9'), so the time-order
check passes although 10:00 is after 9:30. -/
def c8Input : SessionInput :=
  { resident_id := 1
    support_worker_id := 7
    property_id := 3
    support_type := "mental_health"
    session_date := ⟨2024, 3, 1⟩
    start_time := ['1', '0', ':', '0', '0']
    end_time := ['9', ':', '3', '0']
    duration_minutes := 60
    status := none
    notes := none }

/-- The row the INSERT stores for `c8Input`. -/
def c8Stored : Session :=
  { id := 5
    resident_id := 1
    support_worker_id := 7
    property_id := 3
    support_type := "mental_health"
    session_date := ⟨2024, 3, 1⟩
    start_time := 600
    end_time := 570
    duration_minutes := 60
    status := SessionStatus.planned
    notes := none
    created_by := 1 }

/-- C8: the create route accepts a session whose stored start_time
(10:00 = 600 min) is after its end_time (9:30 = 570 min), and stores
the client-supplied duration_minutes (60) which does not equal
end − start. -/
theorem createSession_accepts_inverted_times :
    createSession [] 5 1 c8Input = (CreateResult.created c8Stored, [c8Stored]) ∧
    c8Stored.start_time = 600 ∧
    c8Stored.end_time = 570 ∧
    ¬ (c8Stored.start_time < c8Stored.end_time) ∧
    c8Stored.duration_minutes ≠
      (c8Stored.end_time : Int) - (c8Stored.start_time : Int) := by
  refine ⟨rfl, rfl, rfl, by decide, by decide⟩

/-- First created session: worker 7, 2024-03-01, 09:00–10:00. -/
def c1InputA : SessionInput :=
  { resident_id := 1
    support_worker_id := 7
    property_id := 3
    support_type := "mental_health"
    session_date := ⟨2024, 3, 1⟩
    start_time := ['0', '9', ':', '0', '0']
    end_time := ['1', '0', ':', '0', '0']
    duration_minutes := 60
    status := none
    notes := none }

/-- Second created session: worker 7, 2024-03-01, 11:00–12:00. -/
def c1InputB : SessionInput :=
  { resident_id := 2
    support_worker_id := 7
    property_id := 3
    support_type := "mental_health"
    session_date := ⟨2024, 3, 1⟩
    start_time := ['1', '1', ':', '0', '0']
    end_time := ['1', '2', ':', '0', '0']
    duration_minutes := 60
    status := none
    notes := none }

/-- Edit payload moving the second session to 09:30–10:30, overlapping
the first. -/
def c1InputB2 : SessionInput :=
  { resident_id := 2
    support_worker_id := 7
    property_id := 3
    support_type := "mental_health"
    session_date := ⟨2024, 3, 1⟩
    start_time := ['0', '9', ':', '3', '0']
    end_time := ['1', '0', ':', '3', '0']
    duration_minutes := 60
    status := some SessionStatus.planned
    notes := none }

/-- C1: a sequence create, create, update in which every operation
passes validation, yet the resulting store contains two overlapping
active sessions for the same worker and date: the update handler does
not re-validate conflict-freedom. -/
theorem updateSession_breaks_overlap_invariant :
    (createSession [] 1 1 c1InputA).2.length = 1 ∧
    (createSession (createSession [] 1 1 c1InputA).2 2 1 c1InputB).2.length = 2 ∧
    activeOverlapFree
      (createSession (createSession [] 1 1 c1InputA).2 2 1 c1InputB).2 ∧
    (updateSession
      (createSession (createSession [] 1 1 c1InputA).2 2 1 c1InputB).2
      2 c1InputB2).1 = UpdateResult.redirected 2 ∧
    ¬ activeOverlapFree
      (updateSession
        (createSession (createSession [] 1 1 c1InputA).2 2 1 c1InputB).2
        2 c1InputB2).2 := by
  refine ⟨rfl, rfl, by decide, rfl, by decide⟩

/-! ## Utilization aggregation and CSV export (`src/routes/reports.js`)

SQL numerics are modelled as exact rationals. `Number.prototype.toFixed(1)`
takes the sign and then rounds the magnitude half-up to one decimal;
`toFixed1Rat` is that value as a rational, `toFixed1Str` as the digit
string. -/

def toFixed1Rat (x : ℚ) : ℚ :=
  if x < 0 then -((round (-x * 10) : ℚ) / 10) else (round (x * 10) : ℚ) / 10

def toFixed1Str (x : ℚ) : String :=
  (if x < 0 then "-" else "") ++
    toString ((round (|x| * 10)).toNat / 10) ++ "." ++
    toString ((round (|x| * 10)).toNat % 10)

/-- `getMonthlyUtilization` row mapping:
`row.monthly_support_hours > 0 ? ((row.hours_used /
row.monthly_support_hours) * 100).toFixed(1) : 0`. -/
def utilizationRateResident (hours_used monthly_support_hours : ℚ) : ℚ :=
  if 0 < monthly_support_hours then
    toFixed1Rat (hours_used / monthly_support_hours * 100)
  else 0

/-- `getWorkerPerformance` row mapping: same guard over
`max_hours_per_month`. -/
def utilizationRateWorker (hours_worked max_hours_per_month : ℚ) : ℚ :=
  if 0 < max_hours_per_month then
    toFixed1Rat (hours_worked / max_hours_per_month * 100)
  else 0

/-- `getPropertyUtilization` row mapping: same guard over
`max_capacity`, with resident count over capacity. -/
def occupancyRateProperty (current_residents max_capacity : ℚ) : ℚ :=
  if 0 < max_capacity then
    toFixed1Rat (current_residents / max_capacity * 100)
  else 0

/-- The `hours_used` aggregate of `getMonthlyUtilization` for one
resident: sessions joined on the report month, summed through
`CASE WHEN status = 'completed' THEN duration_minutes ELSE 0 END`,
divided by 60.0. -/
def hoursUsedInMonth (y m : Nat) (sessions : List Session) : ℚ :=
  (((sessions.filter (fun s =>
      s.session_date.year == y && s.session_date.month == m)).map
    (fun s => if s.status == SessionStatus.completed
      then (s.duration_minutes : ℚ) else 0)).sum) / 60

/-- `remaining_hours = row.monthly_support_hours - row.hours_used`,
with no clamping. -/
def remainingHours (monthly_support_hours hours_used : ℚ) : ℚ :=
  monthly_support_hours - hours_used

/-- C6: the aggregator never divides by zero: a zero allocation yields
a 0 percentage for residents, workers and properties alike, regardless
of the used value; a positive allocation yields used/allocated × 100
rounded to one decimal place. -/
theorem utilizationRate_zero_guard (used alloc : ℚ) :
    (alloc = 0 →
      utilizationRateResident used alloc = 0 ∧
      utilizationRateWorker used alloc = 0 ∧
      occupancyRateProperty used alloc = 0) ∧
    (0 < alloc →
      utilizationRateResident used alloc = toFixed1Rat (used / alloc * 100) ∧
      utilizationRateWorker used alloc = toFixed1Rat (used / alloc * 100) ∧
      occupancyRateProperty used alloc = toFixed1Rat (used / alloc * 100)) := by
  constructor
  · intro h
    subst h
    refine ⟨?_, ?_, ?_⟩ <;>
      simp [utilizationRateResident, utilizationRateWorker, occupancyRateProperty]
  · intro h
    refine ⟨?_, ?_, ?_⟩ <;>
      simp [utilizationRateResident, utilizationRateWorker, occupancyRateProperty, h]

/-- C6 witness: allocation 0 with 5 used hours yields 0, no fault. -/
theorem utilizationRate_zero_guard_witness :
    utilizationRateResident 5 0 = 0 ∧
    utilizationRateWorker 5 0 = 0 ∧
    occupancyRateProperty 5 0 = 0 :=
  (utilizationRate_zero_guard 5 0).1 rfl

/-- Example month of sessions for C7: 60 + 30 completed minutes in
2024-03, a cancelled 45-minute session the same month, and a completed
session in another month. -/
def c7Sessions : List Session :=
  [{ id := 1, resident_id := 1, support_worker_id := 7, property_id := 3,
     support_type := "mental_health", session_date := ⟨2024, 3, 4⟩,
     start_time := 540, end_time := 600, duration_minutes := 60,
     status := SessionStatus.completed, notes := none, created_by := 1 },
   { id := 2, resident_id := 1, support_worker_id := 7, property_id := 3,
     support_type := "mental_health", session_date := ⟨2024, 3, 11⟩,
     start_time := 540, end_time := 570, duration_minutes := 30,
     status := SessionStatus.completed, notes := none, created_by := 1 },
   { id := 3, resident_id := 1, support_worker_id := 7, property_id := 3,
     support_type := "mental_health", session_date := ⟨2024, 3, 18⟩,
     start_time := 540, end_time := 585, duration_minutes := 45,
     status := SessionStatus.cancelled, notes := none, created_by := 1 },
   { id := 4, resident_id := 1, support_worker_id := 7, property_id := 3,
     support_type := "mental_health", session_date := ⟨2024, 4, 1⟩,
     start_time := 540, end_time := 660, duration_minutes := 120,
     status := SessionStatus.completed, notes := none, created_by := 1 }]

/-- C7: `used` equals the sum of duration_minutes over the resident's
completed sessions in the period divided by 60; `remaining` equals
allocated − used, negative values passed through; 90 completed minutes
against a 2-hour allocation yield used = 1.5, remaining = 0.5,
utilization 75.0. -/
theorem monthlyUtilization_used_remaining :
    (∀ (y m : Nat) (sessions : List Session),
      hoursUsedInMonth y m sessions =
        (((sessions.filter (fun s =>
            s.session_date.year == y && s.session_date.month == m &&
            s.status == SessionStatus.completed)).map
          (fun s => (s.duration_minutes : ℚ))).sum) / 60) ∧
    (∀ alloc used : ℚ, remainingHours alloc used = alloc - used) ∧
    (hoursUsedInMonth 2024 3 c7Sessions = 3 / 2 ∧
      remainingHours 2 (hoursUsedInMonth 2024 3 c7Sessions) = 1 / 2 ∧
      utilizationRateResident (hoursUsedInMonth 2024 3 c7Sessions) 2 = 75) ∧
    remainingHours 1 (hoursUsedInMonth 2024 3 c7Sessions) < 0 := by
  have hsum : ∀ (y m : Nat) (sessions : List Session),
      hoursUsedInMonth y m sessions =
        (((sessions.filter (fun s =>
            s.session_date.year == y && s.session_date.month == m &&
            s.status == SessionStatus.completed)).map
          (fun s => (s.duration_minutes : ℚ))).sum) / 60 := by
    intro y m sessions
    unfold hoursUsedInMonth
    congr 1
    induction sessions with
    | nil => rfl
    | cons s ss ih =>
      simp only [List.filter_cons]
      by_cases h1 : (s.session_date.year == y && s.session_date.month == m) = true
      · rw [if_pos h1]
        by_cases h2 : (s.status == SessionStatus.completed) = true
        · rw [if_pos (show (s.session_date.year == y && s.session_date.month == m &&
              s.status == SessionStatus.completed) = true from by
            rw [h1, Bool.true_and]; exact h2)]
          simp only [List.map_cons, List.sum_cons]
          rw [if_pos h2, ih]
        · rw [Bool.not_eq_true] at h2
          rw [if_neg (show ¬ (s.session_date.year == y && s.session_date.month == m &&
              s.status == SessionStatus.completed) = true from by
            rw [h1, Bool.true_and, h2]; exact Bool.false_ne_true)]
          simp only [List.map_cons, List.sum_cons]
          rw [if_neg (by rw [h2]; exact Bool.false_ne_true), ih, zero_add]
      · rw [Bool.not_eq_true] at h1
        rw [if_neg (by rw [h1]; exact Bool.false_ne_true)]
        rw [if_neg (by rw [h1, Bool.false_and]; exact Bool.false_ne_true)]
        exact ih
  have hne : SessionStatus.cancelled ≠ SessionStatus.completed := by decide
  have hval : hoursUsedInMonth 2024 3 c7Sessions = 3 / 2 := by
    norm_num [hoursUsedInMonth, c7Sessions, hne]
  refine ⟨hsum, fun _ _ => rfl, ⟨hval, ?_, ?_⟩, ?_⟩
  · rw [hval]
    norm_num [remainingHours]
  · rw [hval]
    unfold utilizationRateResident
    rw [if_pos (by norm_num)]
    unfold toFixed1Rat
    rw [if_neg (by norm_num)]
    rw [show (3:ℚ) / 2 / 2 * 100 * 10 = 750 from by norm_num]
    norm_num [round_eq]
  · rw [hval]
    norm_num [remainingHours]

/-! ## CSV serialization (`generateCSV` in reports.js)

The input rows are the `getMonthlyUtilization` rows the detailed report
passes in: `utilization_rate` is already a string there,
`property_name` may be SQL NULL (`|| ''`), `monthly_support_hours` is
an integer column. Every cell is interpolated into `"${cell}"` — one
pair of double quotes around the raw contents, no escaping. -/

structure CsvResidentRow where
  first_name : String
  last_name : String
  property_name : Option String
  monthly_support_hours : Nat
  hours_used : ℚ
  utilization_rate : String
  remaining_hours : ℚ
deriving DecidableEq, Repr

def csvHeaders : List String :=
  ["Resident Name", "Property", "Allocated Hours", "Hours Used",
   "Utilization Rate", "Remaining Hours"]

def csvCells (r : CsvResidentRow) : List String :=
  [r.first_name ++ " " ++ r.last_name,
   r.property_name.getD "",
   toString r.monthly_support_hours,
   toFixed1Str r.hours_used,
   r.utilization_rate ++ "%",
   toFixed1Str r.remaining_hours]

def quoteCell (c : String) : String := "\"" ++ c ++ "\""

def generateCSV (rows : List CsvResidentRow) : String :=
  String.intercalate "\n" ((csvHeaders :: rows.map csvCells).map
    (fun row => String.intercalate "," (row.map quoteCell)))

/-- A resident row whose name contains a double quote and whose
property name contains a comma. -/
def c10Row : CsvResidentRow :=
  { first_name := "An\"n"
    last_name := "Smith"
    property_name := some "Oak, Elm House"
    monthly_support_hours := 25
    hours_used := 3 / 2
    utilization_rate := "6.0"
    remaining_hours := 47 / 2 }

/-- C10: the CSV is the header line followed by one line per resident
row in input order, each field wrapped in one pair of double quotes
with its contents verbatim; a name containing a double quote or a
property containing a comma appears unescaped inside the quotes. -/
theorem generateCSV_structure :
    (∀ rows : List CsvResidentRow,
      generateCSV rows = String.intercalate "\n"
        ((String.intercalate "," (csvHeaders.map quoteCell)) ::
          rows.map (fun r => String.intercalate "," ((csvCells r).map quoteCell)))) ∧
    generateCSV [c10Row] =
      "\"Resident Name\",\"Property\",\"Allocated Hours\",\"Hours Used\",\"Utilization Rate\",\"Remaining Hours\"\n\"An\"n Smith\",\"Oak, Elm House\",\"25\",\"1.5\",\"6.0%\",\"23.5\"" := by
  constructor
  · intro rows
    unfold generateCSV
    rw [List.map_cons, List.map_map]
    rfl
  · have habs1 : |(3:ℚ) / 2| * 10 = 15 := by
      rw [abs_of_nonneg (by norm_num)]
      norm_num
    have habs2 : |(47:ℚ) / 2| * 10 = 235 := by
      rw [abs_of_nonneg (by norm_num)]
      norm_num
    have hr1 : round ((15:ℚ)) = 15 := by norm_num [round_eq]
    have hr2 : round ((235:ℚ)) = 235 := by norm_num [round_eq]
    have h1 : toFixed1Str (3 / 2) = "1.5" := by
      unfold toFixed1Str
      rw [if_neg (by norm_num), habs1, hr1]
      rfl
    have h2 : toFixed1Str (47 / 2) = "23.5" := by
      unfold toFixed1Str
      rw [if_neg (by norm_num), habs2, hr2]
      rfl
    have hcells : csvCells c10Row =
        ["An\"n Smith", "Oak, Elm House", "25", "1.5", "6.0%", "23.5"] := by
      unfold csvCells
      dsimp only [c10Row]
      rw [h1, h2]
      rfl
    unfold generateCSV
    simp only [List.map_cons, List.map_nil]
    rw [hcells]
    rfl

end Norton
